import Mathlib

/-!
Verification of the GeoJSON / raster tutorial notebook
(`nb/Geojson and Rasterio Demo.ipynb`).

The notebook's algorithmic content is embedded shallowly:

* `Affine` — the six-coefficient affine transform of the `affine` library,
  mapping pixel `(col, row)` to geographic `(lon, lat)` via
  `lon = a*col + b*row + c`, `lat = d*col + e*row + f` (notebook cell-21).
* `Affine.index` — `rasterio`'s `DatasetReader.index`: the `(row, col)` pixel
  containing a geographic point, i.e. the floor of the inverse affine image
  (notebook cell-13 describes it; `rasterio` floors by default).
* `raster_window` — notebook cell-14: `bottom, left = index(lon_min, lat_min)`,
  `top, right = index(lon_max, lat_max)`,
  `raster_window = ((top, bottom+1), (left, right+1))`.
* `ny_affine` — notebook cell-22: the local affine for the window.
* the mask / statistics pipeline of cells 16, 24 and 28.

Coordinates are modelled as rationals so every definition is executable and
every floor is exact.
-/

/-- The `affine` library's transform: `Affine(a, b, c, d, e, f)` maps pixel
coordinates `(x, y) = (col, row)` to `(lon, lat) = (a*x + b*y + c, d*x + e*y + f)`
(notebook cell-21). -/
structure Affine where
  a : ℚ
  b : ℚ
  c : ℚ
  d : ℚ
  e : ℚ
  f : ℚ
deriving DecidableEq

/-- Determinant of the linear part of the transform. -/
def Affine.det (t : Affine) : ℚ := t.a * t.e - t.b * t.d

/-- Forward application: pixel `(col, row)` to geographic `(lon, lat)`. -/
def Affine.fwd (t : Affine) (x y : ℚ) : ℚ × ℚ :=
  (t.a * x + t.b * y + t.c, t.d * x + t.e * y + t.f)

/-- Fractional column coordinate of a geographic point: first component of the
inverse affine image of `(lon, lat)`. -/
def Affine.colcoord (t : Affine) (lon lat : ℚ) : ℚ :=
  (t.e * (lon - t.c) - t.b * (lat - t.f)) / t.det

/-- Fractional row coordinate of a geographic point: second component of the
inverse affine image of `(lon, lat)`. -/
def Affine.rowcoord (t : Affine) (lon lat : ℚ) : ℚ :=
  (t.a * (lat - t.f) - t.d * (lon - t.c)) / t.det

/-- Modelled from the spec: `rasterio`'s `DatasetReader.index` (called in
notebook cell-14, described in cell-13) returns the `(row, col)` indices of the
pixel containing a geographic point — the floor of the inverse affine image.
The method itself lives in the `rasterio` library, not in this repository. -/
def Affine.index (t : Affine) (lon lat : ℚ) : ℤ × ℤ :=
  (⌊t.rowcoord lon lat⌋, ⌊t.colcoord lon lat⌋)

/-- Notebook cell-14: the pixel window for a bounding box.
`bottom, left = raster_file.index(lon_min, lat_min)`;
`top, right = raster_file.index(lon_max, lat_max)`;
`raster_window = ((top, bottom+1), (left, right+1))`. -/
def raster_window (t : Affine) (lon_min lat_min lon_max lat_max : ℚ) :
    (ℤ × ℤ) × (ℤ × ℤ) :=
  ((((t.index lon_max lat_max).1, (t.index lon_min lat_min).1 + 1)),
   (((t.index lon_min lat_min).2, (t.index lon_max lat_max).2 + 1)))

/-- Notebook cell-22: the local affine transform for the window,
`Affine(rfa.a, rfa.b, lon_min, rfa.d, rfa.e, lat_max)`. -/
def ny_affine (rfa : Affine) (lon_min lat_max : ℚ) : Affine :=
  ⟨rfa.a, rfa.b, lon_min, rfa.d, rfa.e, lat_max⟩

/-- For an axis-aligned transform (`b = d = 0`) with nonzero `e`, the column
coordinate is `(lon - c) / a`. -/
theorem colcoord_northup (t : Affine) (hb : t.b = 0) (hd : t.d = 0)
    (he : t.e ≠ 0) (lon lat : ℚ) :
    t.colcoord lon lat = (lon - t.c) / t.a := by
  rw [Affine.colcoord, Affine.det, hb, hd]
  rw [zero_mul, mul_zero, sub_zero, sub_zero, mul_comm t.a t.e]
  exact mul_div_mul_left _ _ he

/-- For an axis-aligned transform (`b = d = 0`) with nonzero `a`, the row
coordinate is `(lat - f) / e`. -/
theorem rowcoord_northup (t : Affine) (hb : t.b = 0) (hd : t.d = 0)
    (ha : t.a ≠ 0) (lon lat : ℚ) :
    t.rowcoord lon lat = (lat - t.f) / t.e := by
  rw [Affine.rowcoord, Affine.det, hb, hd]
  rw [zero_mul, mul_zero, sub_zero, sub_zero]
  exact mul_div_mul_left _ _ ha

/-- Claim C1 (counterexample): the resolver does not compare the two computed
row values; it assigns `bottom` from `lat_min` and `top` from `lat_max`
unconditionally. For the raster transform `a=1, b=0, c=0, d=0, e=1, f=0`
(row-axis coefficient `e = 1 > 0`) and the non-degenerate bounding box
`lon ∈ [0,2]`, `lat ∈ [0,2]`, the emitted window has row bounds `(2, 1)`,
which is degenerate (`top ≥ bottom` as window bounds), refuting the claim that
a non-degenerate window is emitted regardless of the sign of `e`. -/
theorem raster_window_degenerate_for_pos_e :
    (0:ℚ) < 2 ∧
    raster_window ⟨1,0,0,0,1,0⟩ 0 0 2 2 = ((2, 1), (0, 3)) ∧
    ¬ ((raster_window ⟨1,0,0,0,1,0⟩ 0 0 2 2).1.1 <
        (raster_window ⟨1,0,0,0,1,0⟩ 0 0 2 2).1.2) := by
  refine ⟨by norm_num, ?_, ?_⟩ <;>
    norm_num [raster_window, Affine.index, Affine.rowcoord, Affine.colcoord,
      Affine.det]

/-- Claim C1 (amended): for a north-up raster (`b = d = 0`, `a > 0`, `e < 0`)
and any bounding box with `lon_min ≤ lon_max` and `lat_min ≤ lat_max`, the
window emitted by `raster_window` is non-degenerate: its row bounds
`(top, bottom+1)` satisfy `top < bottom+1` and its column bounds
`(left, right+1)` satisfy `left < right+1`. (For `e > 0` the code's fixed
assignment of `bottom` from `lat_min` produces a degenerate window, see the
counterexample.) -/
theorem raster_window_northup_nondegenerate
    (t : Affine) (lon_min lat_min lon_max lat_max : ℚ)
    (hb : t.b = 0) (hd : t.d = 0) (ha : 0 < t.a) (he : t.e < 0)
    (hlon : lon_min ≤ lon_max) (hlat : lat_min ≤ lat_max) :
    (raster_window t lon_min lat_min lon_max lat_max).1.1 <
      (raster_window t lon_min lat_min lon_max lat_max).1.2 ∧
    (raster_window t lon_min lat_min lon_max lat_max).2.1 <
      (raster_window t lon_min lat_min lon_max lat_max).2.2 := by
  constructor
  · have hrow : t.rowcoord lon_max lat_max ≤ t.rowcoord lon_min lat_min := by
      rw [rowcoord_northup t hb hd ha.ne', rowcoord_northup t hb hd ha.ne']
      exact (div_le_div_right_of_neg he).mpr (by linarith)
    simpa [raster_window, Affine.index] using
      Int.lt_add_one_iff.mpr (Int.floor_le_floor hrow)
  · have hcol : t.colcoord lon_min lat_min ≤ t.colcoord lon_max lat_max := by
      rw [colcoord_northup t hb hd he.ne, colcoord_northup t hb hd he.ne]
      exact (div_le_div_iff_of_pos_right ha).mpr (by linarith)
    simpa [raster_window, Affine.index] using
      Int.lt_add_one_iff.mpr (Int.floor_le_floor hcol)

/-- Witness for C1 (amended) at `a=1, e=-1`, box `lon ∈ [0,2]`, `lat ∈ [-2,0]`. -/
theorem raster_window_northup_nondegenerate_witness :
    (raster_window ⟨1,0,0,0,-1,0⟩ 0 (-2) 2 0).1.1 <
      (raster_window ⟨1,0,0,0,-1,0⟩ 0 (-2) 2 0).1.2 ∧
    (raster_window ⟨1,0,0,0,-1,0⟩ 0 (-2) 2 0).2.1 <
      (raster_window ⟨1,0,0,0,-1,0⟩ 0 (-2) 2 0).2.2 :=
  raster_window_northup_nondegenerate ⟨1,0,0,0,-1,0⟩ 0 (-2) 2 0 rfl rfl
    (by norm_num) (by norm_num) (by norm_num) (by norm_num)

/-- Claim C2 (counterexample): the resolver floors both extreme corners and
adds 1 to the maximum (`floor + 1`), it does not take `ceil + 1`. For the
transform `a=1, b=0, c=0, d=0, e=-1, f=0` and the box `lon ∈ [0, 5/2]`,
`lat ∈ [-2, 0]`, the maximum fractional column coordinate is `5/2`; the
emitted right window bound is `⌊5/2⌋ + 1 = 3`, while `ceil + 1` would be
`⌈5/2⌉ + 1 = 4`. -/
theorem raster_window_not_ceil_plus_one :
    (raster_window ⟨1,0,0,0,-1,0⟩ 0 (-2) (5/2) 0).2.2 = 3 ∧
    ⌈Affine.colcoord ⟨1,0,0,0,-1,0⟩ (5/2) (-2)⌉ + 1 = 4 ∧
    (raster_window ⟨1,0,0,0,-1,0⟩ 0 (-2) (5/2) 0).2.2 ≠
      ⌈Affine.colcoord ⟨1,0,0,0,-1,0⟩ (5/2) (-2)⌉ + 1 := by
  have hcol : Affine.colcoord ⟨1,0,0,0,-1,0⟩ (5/2) (-2) = 5/2 := by
    norm_num [Affine.colcoord, Affine.det]
  have hceil : ⌈(5/2 : ℚ)⌉ = 3 := by
    rw [Int.ceil_eq_iff]; norm_num
  refine ⟨?_, ?_, ?_⟩
  · norm_num [raster_window, Affine.index, Affine.rowcoord, Affine.colcoord,
      Affine.det]
  · rw [hcol, hceil]
    norm_num
  · rw [hcol, hceil]
    norm_num [raster_window, Affine.index, Affine.rowcoord, Affine.colcoord,
      Affine.det]

/-- Claim C2 (amended): for a north-up raster (`b = d = 0`, `a > 0`, `e < 0`)
the resolver rounds outward by flooring the extreme fractional pixel
coordinates and adding 1 on the maximum side (`floor` of the minimum,
`floor + 1` — not `ceil + 1` — of the maximum), independently for rows and
columns, and the resulting integer window fully contains the requested
geographic box: every point `(x, y)` of the box has fractional pixel
coordinates inside the window. -/
theorem raster_window_outward
    (t : Affine) (lon_min lat_min lon_max lat_max x y : ℚ)
    (hb : t.b = 0) (hd : t.d = 0) (ha : 0 < t.a) (he : t.e < 0)
    (hx1 : lon_min ≤ x) (hx2 : x ≤ lon_max)
    (hy1 : lat_min ≤ y) (hy2 : y ≤ lat_max) :
    (raster_window t lon_min lat_min lon_max lat_max).2.1 =
      ⌊t.colcoord lon_min lat_min⌋ ∧
    (raster_window t lon_min lat_min lon_max lat_max).2.2 =
      ⌊t.colcoord lon_max lat_max⌋ + 1 ∧
    (raster_window t lon_min lat_min lon_max lat_max).1.1 =
      ⌊t.rowcoord lon_max lat_max⌋ ∧
    (raster_window t lon_min lat_min lon_max lat_max).1.2 =
      ⌊t.rowcoord lon_min lat_min⌋ + 1 ∧
    (((raster_window t lon_min lat_min lon_max lat_max).2.1 : ℚ) ≤
        t.colcoord x y ∧
      t.colcoord x y ≤
        ((raster_window t lon_min lat_min lon_max lat_max).2.2 : ℚ)) ∧
    (((raster_window t lon_min lat_min lon_max lat_max).1.1 : ℚ) ≤
        t.rowcoord x y ∧
      t.rowcoord x y ≤
        ((raster_window t lon_min lat_min lon_max lat_max).1.2 : ℚ)) := by
  have hc : ∀ u v : ℚ, t.colcoord u v = (u - t.c) / t.a :=
    fun u v => colcoord_northup t hb hd he.ne u v
  have hr : ∀ u v : ℚ, t.rowcoord u v = (v - t.f) / t.e :=
    fun u v => rowcoord_northup t hb hd ha.ne' u v
  have hcmono1 : t.colcoord lon_min lat_min ≤ t.colcoord x y := by
    rw [hc, hc]; exact (div_le_div_iff_of_pos_right ha).mpr (by linarith)
  have hcmono2 : t.colcoord x y ≤ t.colcoord lon_max lat_max := by
    rw [hc, hc]; exact (div_le_div_iff_of_pos_right ha).mpr (by linarith)
  have hrmono1 : t.rowcoord lon_max lat_max ≤ t.rowcoord x y := by
    rw [hr, hr]; exact (div_le_div_right_of_neg he).mpr (by linarith)
  have hrmono2 : t.rowcoord x y ≤ t.rowcoord lon_min lat_min := by
    rw [hr, hr]; exact (div_le_div_right_of_neg he).mpr (by linarith)
  refine ⟨rfl, rfl, rfl, rfl, ⟨?_, ?_⟩, ?_, ?_⟩
  · exact le_trans (Int.floor_le _) hcmono1
  · show t.colcoord x y ≤ ((⌊t.colcoord lon_max lat_max⌋ + 1 : ℤ) : ℚ)
    push_cast
    exact le_of_lt (lt_of_le_of_lt hcmono2 (Int.lt_floor_add_one _))
  · exact le_trans (Int.floor_le _) hrmono1
  · show t.rowcoord x y ≤ ((⌊t.rowcoord lon_min lat_min⌋ + 1 : ℤ) : ℚ)
    push_cast
    exact le_of_lt (lt_of_le_of_lt hrmono2 (Int.lt_floor_add_one _))

/-- Witness for C2 (amended) at `a=1, e=-1`, box `lon ∈ [0,2]`, `lat ∈ [-2,0]`,
interior point `(1, -1)`. -/
theorem raster_window_outward_witness :
    (raster_window ⟨1,0,0,0,-1,0⟩ 0 (-2) 2 0).2.1 =
      ⌊Affine.colcoord ⟨1,0,0,0,-1,0⟩ 0 (-2)⌋ ∧
    (raster_window ⟨1,0,0,0,-1,0⟩ 0 (-2) 2 0).2.2 =
      ⌊Affine.colcoord ⟨1,0,0,0,-1,0⟩ 2 0⌋ + 1 ∧
    (raster_window ⟨1,0,0,0,-1,0⟩ 0 (-2) 2 0).1.1 =
      ⌊Affine.rowcoord ⟨1,0,0,0,-1,0⟩ 2 0⌋ ∧
    (raster_window ⟨1,0,0,0,-1,0⟩ 0 (-2) 2 0).1.2 =
      ⌊Affine.rowcoord ⟨1,0,0,0,-1,0⟩ 0 (-2)⌋ + 1 ∧
    (((raster_window ⟨1,0,0,0,-1,0⟩ 0 (-2) 2 0).2.1 : ℚ) ≤
        Affine.colcoord ⟨1,0,0,0,-1,0⟩ 1 (-1) ∧
      Affine.colcoord ⟨1,0,0,0,-1,0⟩ 1 (-1) ≤
        ((raster_window ⟨1,0,0,0,-1,0⟩ 0 (-2) 2 0).2.2 : ℚ)) ∧
    (((raster_window ⟨1,0,0,0,-1,0⟩ 0 (-2) 2 0).1.1 : ℚ) ≤
        Affine.rowcoord ⟨1,0,0,0,-1,0⟩ 1 (-1) ∧
      Affine.rowcoord ⟨1,0,0,0,-1,0⟩ 1 (-1) ≤
        ((raster_window ⟨1,0,0,0,-1,0⟩ 0 (-2) 2 0).1.2 : ℚ)) :=
  raster_window_outward ⟨1,0,0,0,-1,0⟩ 0 (-2) 2 0 1 (-1) rfl rfl
    (by norm_num) (by norm_num) (by norm_num) (by norm_num) (by norm_num)
    (by norm_num)

/-- A scaled difference of floors stays within one scale unit of the scaled
difference of the underlying values. -/
theorem floor_diff_bound (u v s : ℚ) (hs : 0 < s) :
    |s * ((⌊v⌋ : ℚ) - (⌊u⌋ : ℚ)) - s * (v - u)| ≤ s := by
  have h1 : (⌊u⌋ : ℚ) ≤ u := Int.floor_le u
  have h2 : u < (⌊u⌋ : ℚ) + 1 := Int.lt_floor_add_one u
  have h3 : (⌊v⌋ : ℚ) ≤ v := Int.floor_le v
  have h4 : v < (⌊v⌋ : ℚ) + 1 := Int.lt_floor_add_one v
  rw [abs_le]
  constructor <;> nlinarith

/-- Claim C3: the local affine constructor copies the scale/rotation
coefficients `a`, `b`, `d`, `e` unchanged from the source transform and sets
only the translation coefficients: `c` to the window's top-left longitude
(`lon_min`) and `f` to the window's top-left latitude (`lat_max`). -/
theorem ny_affine_coeffs (rfa : Affine) (lon_min lat_max : ℚ) :
    (ny_affine rfa lon_min lat_max).a = rfa.a ∧
    (ny_affine rfa lon_min lat_max).b = rfa.b ∧
    (ny_affine rfa lon_min lat_max).d = rfa.d ∧
    (ny_affine rfa lon_min lat_max).e = rfa.e ∧
    (ny_affine rfa lon_min lat_max).c = lon_min ∧
    (ny_affine rfa lon_min lat_max).f = lat_max :=
  ⟨rfl, rfl, rfl, rfl, rfl, rfl⟩

/-- Claim C4: round-trip. The mask array has the window's shape
`(rows, cols) = (bottom+1-top, right+1-left)`; its corner pixels have indices
`(0, 0)` and `(rows-1, cols-1)`. Mapping pixel indices back to geography
through the constructed local affine (the inverse direction of the resolver's
geographic-to-pixel indexing) reproduces the original bounding box to within
one pixel's scale: the `(0,0)` corner maps exactly to `(lon_min, lat_max)`,
and the opposite corner maps to within `|a|` of `lon_max` in longitude and
within `|e|` of `lat_min` in latitude. -/
theorem ny_affine_roundtrip
    (t : Affine) (lon_min lat_min lon_max lat_max : ℚ)
    (hb : t.b = 0) (hd : t.d = 0) (ha : 0 < t.a) (he : t.e < 0) :
    (ny_affine t lon_min lat_max).fwd 0 0 = (lon_min, lat_max) ∧
    |((ny_affine t lon_min lat_max).fwd
        (((raster_window t lon_min lat_min lon_max lat_max).2.2 -
            (raster_window t lon_min lat_min lon_max lat_max).2.1 - 1 : ℤ) : ℚ)
        (((raster_window t lon_min lat_min lon_max lat_max).1.2 -
            (raster_window t lon_min lat_min lon_max lat_max).1.1 - 1 : ℤ) : ℚ)).1 -
        lon_max| ≤ t.a ∧
    |((ny_affine t lon_min lat_max).fwd
        (((raster_window t lon_min lat_min lon_max lat_max).2.2 -
            (raster_window t lon_min lat_min lon_max lat_max).2.1 - 1 : ℤ) : ℚ)
        (((raster_window t lon_min lat_min lon_max lat_max).1.2 -
            (raster_window t lon_min lat_min lon_max lat_max).1.1 - 1 : ℤ) : ℚ)).2 -
        lat_min| ≤ -t.e := by
  have hXa : t.a * t.colcoord lon_max lat_max = lon_max - t.c := by
    rw [colcoord_northup t hb hd he.ne]
    field_simp
  have hXb : t.a * t.colcoord lon_min lat_min = lon_min - t.c := by
    rw [colcoord_northup t hb hd he.ne]
    field_simp
  have hYa : t.e * t.rowcoord lon_max lat_max = lat_max - t.f := by
    rw [rowcoord_northup t hb hd ha.ne']
    field_simp [he.ne]
  have hYb : t.e * t.rowcoord lon_min lat_min = lat_min - t.f := by
    rw [rowcoord_northup t hb hd ha.ne']
    field_simp [he.ne]
  refine ⟨?_, ?_, ?_⟩
  · simp [ny_affine, Affine.fwd]
  · have hE1 : ((ny_affine t lon_min lat_max).fwd
        (((raster_window t lon_min lat_min lon_max lat_max).2.2 -
            (raster_window t lon_min lat_min lon_max lat_max).2.1 - 1 : ℤ) : ℚ)
        (((raster_window t lon_min lat_min lon_max lat_max).1.2 -
            (raster_window t lon_min lat_min lon_max lat_max).1.1 - 1 : ℤ) : ℚ)).1 -
          lon_max
        = t.a * ((⌊t.colcoord lon_max lat_max⌋ : ℚ) -
              (⌊t.colcoord lon_min lat_min⌋ : ℚ)) -
            t.a * (t.colcoord lon_max lat_max - t.colcoord lon_min lat_min) := by
      simp only [raster_window, Affine.index, ny_affine, Affine.fwd, hb]
      push_cast
      linear_combination hXa - hXb
    rw [hE1]
    exact floor_diff_bound (t.colcoord lon_min lat_min)
      (t.colcoord lon_max lat_max) t.a ha
  · have hE2 : ((ny_affine t lon_min lat_max).fwd
        (((raster_window t lon_min lat_min lon_max lat_max).2.2 -
            (raster_window t lon_min lat_min lon_max lat_max).2.1 - 1 : ℤ) : ℚ)
        (((raster_window t lon_min lat_min lon_max lat_max).1.2 -
            (raster_window t lon_min lat_min lon_max lat_max).1.1 - 1 : ℤ) : ℚ)).2 -
          lat_min
        = (-t.e) * ((⌊t.rowcoord lon_max lat_max⌋ : ℚ) -
              (⌊t.rowcoord lon_min lat_min⌋ : ℚ)) -
            (-t.e) * (t.rowcoord lon_max lat_max - t.rowcoord lon_min lat_min) := by
      simp only [raster_window, Affine.index, ny_affine, Affine.fwd, hd]
      push_cast
      linear_combination hYb - hYa
    rw [hE2]
    exact floor_diff_bound (t.rowcoord lon_min lat_min)
      (t.rowcoord lon_max lat_max) (-t.e) (by linarith)

/-- Witness for C4 at `a=1, e=-1`, box `lon ∈ [0,2]`, `lat ∈ [-2,0]`. -/
theorem ny_affine_roundtrip_witness :
    (ny_affine ⟨1,0,0,0,-1,0⟩ 0 0).fwd 0 0 = (0, 0) ∧
    |((ny_affine ⟨1,0,0,0,-1,0⟩ 0 0).fwd
        (((raster_window ⟨1,0,0,0,-1,0⟩ 0 (-2) 2 0).2.2 -
            (raster_window ⟨1,0,0,0,-1,0⟩ 0 (-2) 2 0).2.1 - 1 : ℤ) : ℚ)
        (((raster_window ⟨1,0,0,0,-1,0⟩ 0 (-2) 2 0).1.2 -
            (raster_window ⟨1,0,0,0,-1,0⟩ 0 (-2) 2 0).1.1 - 1 : ℤ) : ℚ)).1 -
        2| ≤ (Affine.mk 1 0 0 0 (-1) 0).a ∧
    |((ny_affine ⟨1,0,0,0,-1,0⟩ 0 0).fwd
        (((raster_window ⟨1,0,0,0,-1,0⟩ 0 (-2) 2 0).2.2 -
            (raster_window ⟨1,0,0,0,-1,0⟩ 0 (-2) 2 0).2.1 - 1 : ℤ) : ℚ)
        (((raster_window ⟨1,0,0,0,-1,0⟩ 0 (-2) 2 0).1.2 -
            (raster_window ⟨1,0,0,0,-1,0⟩ 0 (-2) 2 0).1.1 - 1 : ℤ) : ℚ)).2 -
        (-2)| ≤ -(Affine.mk 1 0 0 0 (-1) 0).e :=
  ny_affine_roundtrip ⟨1,0,0,0,-1,0⟩ 0 (-2) 2 0 rfl rfl (by norm_num)
    (by norm_num)

/-- Errors of the masked statistics aggregator (spec section 7). -/
inductive MaskedError where
  | ShapeMismatch : MaskedError
  | EmptyMask : MaskedError
deriving DecidableEq

/-- Result of the masked statistics aggregator: min, max, arithmetic mean and
population variance of the included cells. The standard deviation reported by
the notebook is the square root of `var`. -/
structure MStats where
  smin : ℚ
  smax : ℚ
  mean : ℚ
  var : ℚ
deriving DecidableEq

/-- The values of the cells the mask includes. In the notebook's convention
(cells 24 and 28) a mask cell is `1`/`True` outside the polygon, so `true`
means excluded and `false` means included. -/
def includedVals (data : List (List ℚ)) (mask : List (List Bool)) : List ℚ :=
  ((data.zip mask).map
    (fun p => (p.1.zip p.2).filterMap
      (fun q => if q.2 then none else some q.1))).flatten

/-- Modelled from the spec: the masked statistics aggregator (spec section
4.4). The notebook (cell-28) delegates the statistics to numpy's `np.ma`
masked-array functions, which are library code, not part of this repository;
the aggregator is therefore modelled from the spec's contract: fail with
`ShapeMismatch` when the array shapes differ, fail with `EmptyMask` when zero
cells are included, and otherwise return min, max, arithmetic mean and
population variance over exactly the included cells (excluded cells are
ignored entirely, not treated as zero). -/
def masked_statistics (data : List (List ℚ)) (mask : List (List Bool)) :
    Except MaskedError MStats :=
  if data.map List.length = mask.map List.length then
    match includedVals data mask with
    | [] => Except.error MaskedError.EmptyMask
    | v :: vs =>
      Except.ok ⟨vs.foldl min v, vs.foldl max v,
        (v :: vs).sum / (v :: vs).length,
        ((v :: vs).map
          (fun x => (x - (v :: vs).sum / (v :: vs).length) ^ 2)).sum /
          (v :: vs).length⟩
  else Except.error MaskedError.ShapeMismatch

/-- Claim C5: the masked statistics aggregator returns the `ShapeMismatch`
error whenever the sample and mask arrays have differing shapes, and it
computes statistics (returns `Except.ok`) only when the shapes are
identical. -/
theorem masked_statistics_shape (data : List (List ℚ)) (mask : List (List Bool)) :
    (data.map List.length ≠ mask.map List.length →
      masked_statistics data mask = Except.error MaskedError.ShapeMismatch) ∧
    (∀ s : MStats, masked_statistics data mask = Except.ok s →
      data.map List.length = mask.map List.length) := by
  constructor
  · intro h
    unfold masked_statistics
    rw [if_neg h]
  · intro s hs
    by_contra h
    unfold masked_statistics at hs
    rw [if_neg h] at hs
    exact Except.noConfusion hs

/-- Witness for C5: a `1×1` sample with an empty mask is rejected. -/
theorem masked_statistics_shape_witness :
    masked_statistics [[(1:ℚ)]] [] = Except.error MaskedError.ShapeMismatch :=
  (masked_statistics_shape [[(1:ℚ)]] []).1 (by decide)

/-- Claim C6: when the mask selects zero cells, the aggregator returns the
well-defined `EmptyMask` error rather than undefined statistics. -/
theorem masked_statistics_empty (data : List (List ℚ)) (mask : List (List Bool))
    (hshape : data.map List.length = mask.map List.length)
    (hempty : includedVals data mask = []) :
    masked_statistics data mask = Except.error MaskedError.EmptyMask := by
  unfold masked_statistics
  rw [if_pos hshape, hempty]

/-- Witness for C6: a `1×1` sample whose only cell is masked out. -/
theorem masked_statistics_empty_witness :
    masked_statistics [[(1:ℚ)]] [[true]] = Except.error MaskedError.EmptyMask :=
  masked_statistics_empty [[(1:ℚ)]] [[true]] (by decide) (by decide)

/-- Claim C7: when the mask selects exactly one cell with value `v`, the
aggregator returns `min = max = mean = v` and variance `0`, hence standard
deviation `√0 = 0`. -/
theorem masked_statistics_single (data : List (List ℚ)) (mask : List (List Bool))
    (v : ℚ)
    (hshape : data.map List.length = mask.map List.length)
    (hone : includedVals data mask = [v]) :
    masked_statistics data mask = Except.ok ⟨v, v, v, 0⟩ ∧
    ∀ s : MStats, masked_statistics data mask = Except.ok s →
      Real.sqrt (s.var : ℝ) = 0 := by
  have h1 : masked_statistics data mask = Except.ok ⟨v, v, v, 0⟩ := by
    unfold masked_statistics
    rw [if_pos hshape, hone]
    norm_num
  refine ⟨h1, ?_⟩
  intro s hs
  rw [h1] at hs
  injection hs with h2
  rw [← h2]
  simp

/-- Witness for C7: a `1×1` sample `[[2]]` with its single cell included. -/
theorem masked_statistics_single_witness :
    masked_statistics [[(2:ℚ)]] [[false]] = Except.ok ⟨2, 2, 2, 0⟩ ∧
    ∀ s : MStats, masked_statistics [[(2:ℚ)]] [[false]] = Except.ok s →
      Real.sqrt (s.var : ℝ) = 0 :=
  masked_statistics_single [[(2:ℚ)]] [[false]] 2 (by decide) (by decide)

/-- Claim C8 (counterexample): the resolver raises nothing — its only outcome
is a window. Take the transform `a=1, b=0, c=0, d=0, e=-1, f=0`, whose raster
extent starts at longitude `c = 0` (columns `0, 1, 2, …`), and the bounding
box `lon ∈ [-10, -5]`, `lat ∈ [-2, -1]`, which lies entirely west of the
raster. The resolver silently returns the window `((1, 3), (-10, -4))`, whose
column range consists solely of negative (out-of-extent) indices, instead of
raising a `DegenerateWindow` error. -/
theorem raster_window_outside_no_error :
    raster_window ⟨1,0,0,0,-1,0⟩ (-10) (-2) (-5) (-1) = ((1, 3), (-10, -4)) ∧
    (raster_window ⟨1,0,0,0,-1,0⟩ (-10) (-2) (-5) (-1)).2.2 ≤ 0 := by
  constructor <;>
    norm_num [raster_window, Affine.index, Affine.rowcoord, Affine.colcoord,
      Affine.det]

/-- Claim C8 (amended): the resolver performs no extent check and has no error
outcome. For a north-up raster (`b = d = 0`, `a > 0`, `e < 0`) and a bounding
box lying entirely west of the raster's first column (`lon_max < c`), it
silently returns a window whose column bounds are non-positive, i.e. a window
disjoint from the raster's columns `0, 1, 2, …` — it does not raise a
`DegenerateWindow` error. -/
theorem raster_window_outside_silent
    (t : Affine) (lon_min lat_min lon_max lat_max : ℚ)
    (hb : t.b = 0) (hd : t.d = 0) (ha : 0 < t.a) (he : t.e < 0)
    (hlon : lon_min ≤ lon_max) (hout : lon_max < t.c) :
    (raster_window t lon_min lat_min lon_max lat_max).2.2 ≤ 0 ∧
    (raster_window t lon_min lat_min lon_max lat_max).2.1 < 0 := by
  have hx : t.colcoord lon_max lat_max < 0 := by
    rw [colcoord_northup t hb hd he.ne]
    exact div_neg_of_neg_of_pos (by linarith) ha
  have h1 : ⌊t.colcoord lon_max lat_max⌋ < 0 :=
    Int.floor_lt.mpr (by exact_mod_cast hx)
  have hmono : t.colcoord lon_min lat_min ≤ t.colcoord lon_max lat_max := by
    rw [colcoord_northup t hb hd he.ne, colcoord_northup t hb hd he.ne]
    exact (div_le_div_iff_of_pos_right ha).mpr (by linarith)
  have h2 : ⌊t.colcoord lon_min lat_min⌋ ≤ ⌊t.colcoord lon_max lat_max⌋ :=
    Int.floor_le_floor hmono
  constructor
  · show ⌊t.colcoord lon_max lat_max⌋ + 1 ≤ 0
    omega
  · show ⌊t.colcoord lon_min lat_min⌋ < 0
    omega

/-- Witness for C8 (amended) at the counterexample's raster and box. -/
theorem raster_window_outside_silent_witness :
    (raster_window ⟨1,0,0,0,-1,0⟩ (-10) (-2) (-5) (-1)).2.2 ≤ 0 ∧
    (raster_window ⟨1,0,0,0,-1,0⟩ (-10) (-2) (-5) (-1)).2.1 < 0 :=
  raster_window_outside_silent ⟨1,0,0,0,-1,0⟩ (-10) (-2) (-5) (-1) rfl rfl
    (by norm_num) (by norm_num) (by norm_num) (by norm_num)

/-- Modelled from the spec: notebook cell-16 reads the windowed pixel array,
`ny_raster_array = raster_file.read(indexes=1, window=raster_window)`. The
`read` method is `rasterio` library code; it returns a 2D array whose shape is
the window's `(row_end - row_start, col_end - col_start)`, sampling the
raster's pixel grid `px`. -/
def readWindow (px : ℤ → ℤ → ℚ) (w : (ℤ × ℤ) × (ℤ × ℤ)) : List (List ℚ) :=
  (List.range (w.1.2 - w.1.1).toNat).map fun (r : ℕ) =>
    (List.range (w.2.2 - w.2.1).toNat).map fun (c : ℕ) =>
      px (w.1.1 + (r : ℤ)) (w.2.1 + (c : ℤ))

/-- Modelled from the spec: `rasterio.features.rasterize` (notebook cell-24)
is library code; per the spec (section 4.3) it produces an array of exactly
the target shape `out_rows × out_cols`, holding the fill value outside each
geometry and the geometry's value inside. The notebook passes
`shapes=[(ny_shape, 0)]` and `fill=1`, so as booleans a cell is `true`
(excluded) outside the polygon and `false` (included) inside; `inside r c`
abstracts the library's geometric point-in-polygon test. -/
def rasterize (inside : ℕ → ℕ → Bool) (out_rows out_cols : ℕ) :
    List (List Bool) :=
  (List.range out_rows).map fun (r : ℕ) =>
    (List.range out_cols).map fun (c : ℕ) => ! inside r c

/-- The notebook pipeline of cells 14, 16 and 24 (the spec's
`windowAndMaskFor`): resolve the window, read the windowed pixel array, and
rasterize the polygon mask with `out_shape = ny_raster_array.shape`. -/
def windowAndMaskFor (t : Affine) (lon_min lat_min lon_max lat_max : ℚ)
    (px : ℤ → ℤ → ℚ) (inside : ℕ → ℕ → Bool) :
    List (List ℚ) × List (List Bool) :=
  (readWindow px (raster_window t lon_min lat_min lon_max lat_max),
   rasterize inside
     (readWindow px (raster_window t lon_min lat_min lon_max lat_max)).length
     (((readWindow px
         (raster_window t lon_min lat_min lon_max lat_max)).head?.map
        List.length).getD 0))

/-- Row lengths of a rectangular grid built by nested `List.range` maps. -/
theorem grid_map_length {α : Type} (n m : ℕ) (g : ℕ → ℕ → α) :
    (((List.range n).map fun r => (List.range m).map (g r)).map List.length)
      = List.replicate n m := by
  rw [List.map_map]
  rw [show (List.length ∘ fun r => List.map (g r) (List.range m)) = fun _ => m by
    funext r; simp]
  rw [List.map_const', List.length_range]

/-- The windowed pixel array has one row per window row, each of the window's
column width. -/
theorem readWindow_map_length (px : ℤ → ℤ → ℚ) (w : (ℤ × ℤ) × (ℤ × ℤ)) :
    (readWindow px w).map List.length
      = List.replicate (w.1.2 - w.1.1).toNat (w.2.2 - w.2.1).toNat :=
  grid_map_length _ _ _

/-- The rasterized mask has exactly the requested `out_shape`. -/
theorem rasterize_map_length (inside : ℕ → ℕ → Bool) (n m : ℕ) :
    (rasterize inside n m).map List.length = List.replicate n m :=
  grid_map_length _ _ _

/-- Claim C9: the mask is constructed with `out_shape` equal to the shape of
the windowed pixel array, so for every run of the pipeline the sample and mask
arrays handed to the statistics step have identical shapes, and the
`ShapeMismatch` branch of the aggregator is unreachable on arrays produced by
`windowAndMaskFor`. -/
theorem windowAndMaskFor_shapes (t : Affine) (lon_min lat_min lon_max lat_max : ℚ)
    (px : ℤ → ℤ → ℚ) (inside : ℕ → ℕ → Bool) :
    (windowAndMaskFor t lon_min lat_min lon_max lat_max px inside).1.map
        List.length =
      (windowAndMaskFor t lon_min lat_min lon_max lat_max px inside).2.map
        List.length ∧
    masked_statistics
        (windowAndMaskFor t lon_min lat_min lon_max lat_max px inside).1
        (windowAndMaskFor t lon_min lat_min lon_max lat_max px inside).2 ≠
      Except.error MaskedError.ShapeMismatch := by
  have hlen : (readWindow px
      (raster_window t lon_min lat_min lon_max lat_max)).length =
      ((raster_window t lon_min lat_min lon_max lat_max).1.2 -
        (raster_window t lon_min lat_min lon_max lat_max).1.1).toNat := by
    unfold readWindow
    rw [List.length_map, List.length_range]
  have hsh : (windowAndMaskFor t lon_min lat_min lon_max lat_max px inside).1.map
        List.length =
      (windowAndMaskFor t lon_min lat_min lon_max lat_max px inside).2.map
        List.length := by
    show (readWindow px (raster_window t lon_min lat_min lon_max lat_max)).map
        List.length = (rasterize inside _ _).map List.length
    rw [readWindow_map_length, rasterize_map_length, hlen]
    cases hn : ((raster_window t lon_min lat_min lon_max lat_max).1.2 -
        (raster_window t lon_min lat_min lon_max lat_max).1.1).toNat with
    | zero => rfl
    | succ k =>
      have hhead : (readWindow px
          (raster_window t lon_min lat_min lon_max lat_max)).head?
          = some ((List.range
              ((raster_window t lon_min lat_min lon_max lat_max).2.2 -
                (raster_window t lon_min lat_min lon_max lat_max).2.1).toNat).map
            fun (c : ℕ) =>
              px ((raster_window t lon_min lat_min lon_max lat_max).1.1 + (0:ℤ))
                ((raster_window t lon_min lat_min lon_max lat_max).2.1 + (c : ℤ))) := by
        unfold readWindow
        rw [hn]
        simp [List.range_succ_eq_map]
      rw [hhead]
      simp
  refine ⟨hsh, ?_⟩
  intro h
  unfold masked_statistics at h
  rw [if_pos hsh] at h
  split at h
  · exact MaskedError.noConfusion (Except.error.inj h)
  · exact Except.noConfusion h

/-- Witness for C9 at a concrete raster, box, pixel grid and polygon. -/
theorem windowAndMaskFor_shapes_witness :
    (windowAndMaskFor ⟨1,0,0,0,-1,0⟩ 0 (-2) 2 0 (fun _ _ => 1)
        (fun _ _ => true)).1.map List.length =
      (windowAndMaskFor ⟨1,0,0,0,-1,0⟩ 0 (-2) 2 0 (fun _ _ => 1)
        (fun _ _ => true)).2.map List.length ∧
    masked_statistics
        (windowAndMaskFor ⟨1,0,0,0,-1,0⟩ 0 (-2) 2 0 (fun _ _ => 1)
          (fun _ _ => true)).1
        (windowAndMaskFor ⟨1,0,0,0,-1,0⟩ 0 (-2) 2 0 (fun _ _ => 1)
          (fun _ _ => true)).2 ≠
      Except.error MaskedError.ShapeMismatch :=
  windowAndMaskFor_shapes ⟨1,0,0,0,-1,0⟩ 0 (-2) 2 0 (fun _ _ => 1)
    (fun _ _ => true)

/-- A county feature of the boundary GeoJSON: its `properties.STATE` code, its
`properties.NAME`, and an opaque identifier standing for its geometry (the
pipeline never inspects the geometry while building the lookup table). -/
structure GeoObj where
  STATE : ℕ
  NAME : String
  geometry : ℕ
deriving DecidableEq

/-- Notebook cell-8: `u'{state}: {county}'.format(state=states[int(STATE)],
county=NAME)` — the composite lookup key, where `states` maps state codes to
state names. -/
def get_county_name_from_geo_obj (states : ℕ → String) (g : GeoObj) : String :=
  states g.STATE ++ ": " ++ g.NAME

/-- Notebook cell-8: the dict comprehension
`{get_county_name_from_geo_obj(c): c for c in counties_raw_geojson['features']}`.
A Python dict comprehension inserts in iteration order, each insertion
overwriting any earlier binding of the same key; modelled as a left fold of
overwriting updates starting from the empty table. -/
def counties_geojson (states : ℕ → String) (features : List GeoObj) :
    String → Option GeoObj :=
  features.foldl
    (fun acc g k =>
      if k = get_county_name_from_geo_obj states g then some g else acc k)
    (fun _ => none)

/-- Lookup in the folded table is the last matching feature, with any earlier
accumulated table as fallback. -/
theorem counties_geojson_foldl (states : ℕ → String)
    (m : String → Option GeoObj) (fs : List GeoObj) (k : String) :
    fs.foldl
        (fun acc g k' =>
          if k' = get_county_name_from_geo_obj states g then some g else acc k')
        m k
      = (fs.reverse.find?
          (fun g => get_county_name_from_geo_obj states g == k)).or (m k) := by
  induction fs generalizing m with
  | nil => simp
  | cons g tail ih =>
    rw [List.foldl_cons, ih, List.reverse_cons, List.find?_append]
    cases hf : tail.reverse.find?
        (fun g => get_county_name_from_geo_obj states g == k) with
    | some x => simp
    | none =>
      by_cases hk : k = get_county_name_from_geo_obj states g
      · simp [List.find?, hk]
      · have hb : (get_county_name_from_geo_obj states g == k) = false := by
          rw [beq_eq_false_iff_ne]
          exact Ne.symm hk
        simp [List.find?, hb, hk]

/-- Claim C10: the county lookup table keyed by the composite
`"State: County"` name is built by overwriting insertion — a lookup returns
the last feature in input order whose composite key matches, so when two
boundary features share both state and county name, the later one silently
overwrites the earlier one and every subsequent lookup of that key returns
the later feature; no error is raised. -/
theorem counties_geojson_last_wins (states : ℕ → String) :
    (∀ (features : List GeoObj) (k : String),
      counties_geojson states features k
        = features.reverse.find?
            (fun g => get_county_name_from_geo_obj states g == k)) ∧
    (∀ (features : List GeoObj) (g₁ g₂ : GeoObj),
      g₁.STATE = g₂.STATE → g₁.NAME = g₂.NAME →
      counties_geojson states (features ++ [g₁, g₂])
          (get_county_name_from_geo_obj states g₂) = some g₂) := by
  have h1 : ∀ (features : List GeoObj) (k : String),
      counties_geojson states features k
        = features.reverse.find?
            (fun g => get_county_name_from_geo_obj states g == k) := by
    intro features k
    rw [counties_geojson, counties_geojson_foldl]
    cases features.reverse.find?
        (fun g => get_county_name_from_geo_obj states g == k) with
    | some x => rfl
    | none => rfl
  refine ⟨h1, ?_⟩
  intro features g₁ g₂ hstate hname
  rw [h1, List.reverse_append]
  show (List.find? _ ([g₂, g₁] ++ features.reverse)) = _
  rw [List.find?_append]
  have hbeq : (get_county_name_from_geo_obj states g₂ ==
      get_county_name_from_geo_obj states g₂) = true := by
    simp
  simp [List.find?, hbeq]

/-- Witness for C10: two features both named "New York: New York"; the lookup
returns the second. -/
theorem counties_geojson_last_wins_witness :
    counties_geojson (fun _ => "New York")
        [⟨36, "New York", 0⟩, ⟨36, "New York", 1⟩]
        (get_county_name_from_geo_obj (fun _ => "New York")
          ⟨36, "New York", 1⟩)
      = some ⟨36, "New York", 1⟩ :=
  (counties_geojson_last_wins (fun _ => "New York")).2 []
    ⟨36, "New York", 0⟩ ⟨36, "New York", 1⟩ rfl rfl
